import Mathlib

/-!
Verification of the KalorieSentiment Pushshift comment extraction and
keyword-filtering pipeline, a shallow embedding of
src/utils/filter_pushshift_data.py, src/utils/filter_pushshift_comments.py and
src/filter_constants.py.

Python strings are modelled as character lists (`List Char`); every Python
string operation used by the scripts is embedded as an executable Lean
function.  File-system and process effects of the pipeline driver are
represented as explicit data: returned effect records, diagnostic message
lists and exit codes.
-/

/-- ASCII word character: the characters matched by the regex word class
(letters, digits and the underscore), as used by the word-boundary assertion
of the pattern built in contains_phrase. -/
def isWordChar (c : Char) : Bool := c.isAlphanum || c == '_'

/-- Python str.lower applied to a character list (ASCII case folding,
performed characterwise by Char.toLower). -/
def toLowerList (s : List Char) : List Char := s.map Char.toLower

/-- Whitespace characters recognised by Python str.split() and str.strip()
for ASCII text: space, tab, newline, carriage return, vertical tab and form
feed. -/
def isPySpace (c : Char) : Bool :=
  c == ' ' || c == '\t' || c == '\n' || c == '\r' || c == Char.ofNat 11 || c == Char.ofNat 12

/-- Python str.strip(): drop leading and trailing whitespace. -/
def pyStrip (s : List Char) : List Char :=
  (((s.dropWhile isPySpace).reverse).dropWhile isPySpace).reverse

/-- Helper for pySplit: scan the text, accumulating the current word in
reversed order, emitting it whenever whitespace is reached. -/
def pySplitFrom : List Char → List Char → List (List Char)
  | acc, [] => if acc == [] then [] else [acc.reverse]
  | acc, c :: rest =>
    if isPySpace c then
      (if acc == [] then [] else [acc.reverse]) ++ pySplitFrom [] rest
    else pySplitFrom (c :: acc) rest

/-- Python str.split() with no separator: split on runs of whitespace,
dropping empty pieces. -/
def pySplit (s : List Char) : List (List Char) := pySplitFrom [] s

/-- Python substring containment (the `in` operator on strings): the needle
occurs contiguously somewhere in the haystack. -/
def isSubstring : List Char → List Char → Bool
  | needle, [] => needle == []
  | needle, c :: rest => needle.isPrefixOf (c :: rest) || isSubstring needle rest

/-- Propositional form of substring containment: the haystack decomposes
around a contiguous occurrence of the needle. -/
def SubstringOf (needle hay : List Char) : Prop :=
  ∃ pre post, hay = pre ++ needle ++ post

/-- Helper for splitNlFrom: prepend a character to the first piece of a piece
list (the piece currently being built). -/
def consHead (c : Char) : List (List Char) → List (List Char)
  | [] => [[c]]
  | p :: ps => (c :: p) :: ps

/-- Helper for splitNl: split on runs of newline characters.  The flag
records whether the previous character was a newline, so that a run of
newlines produces a single break, exactly as re.split on a one-or-more
newline pattern does. -/
def splitNlFrom : Bool → List Char → List (List Char)
  | _, [] => [[]]
  | skipping, c :: rest =>
    if c == '\n' then
      if skipping then splitNlFrom true rest
      else [] :: splitNlFrom true rest
    else consHead c (splitNlFrom false rest)

/-- re.split on the one-or-more-newlines pattern used by split_on_newlines:
the pieces of the text between maximal runs of newline characters, with empty
boundary pieces kept, as re.split keeps them. -/
def splitNl (s : List Char) : List (List Char) := splitNlFrom false s

/-- split_on_newlines from filter_pushshift_data.py and
filter_pushshift_comments.py (the two copies are textually identical): split
the comment on runs of newlines, strip each part, and keep only the parts
that are non-empty after stripping. -/
def split_on_newlines (comment : List Char) : List (List Char) :=
  ((splitNl comment).map pyStrip).filter (fun part => !(part == []))

/-- Word-character test at an index of the text (false past the end), used by
the word-boundary assertion. -/
def wordAt (s : List Char) (i : Nat) : Bool :=
  match s.drop i with
  | [] => false
  | c :: _ => isWordChar c

/-- The regex word-boundary assertion at offset i of the text: the position
lies between a word character and a non-word character (the ends of the text
count as non-word). -/
def isBoundary (s : List Char) (i : Nat) : Bool :=
  (decide (0 < i) && wordAt s (i - 1)) != wordAt s i

/-- One candidate match of the boundary-anchored pattern at offset i: the
pattern text occurs literally at i, with word boundaries at both ends. -/
def matchAt (s p : List Char) (i : Nat) : Bool :=
  ((s.drop i).take p.length == p) && isBoundary s i && isBoundary s (i + p.length)

/-- re.search of the escaped phrase wrapped in word-boundary assertions, with
the ignore-case flag: some offset of the lower-cased comment starts a
whole-word occurrence of the lower-cased phrase. -/
def regexSearchWord (comment phrase : List Char) : Bool :=
  (List.range ((toLowerList comment).length + 1)).any
    (fun i => matchAt (toLowerList comment) (toLowerList phrase) i)

/-- contains_phrase from filter_pushshift_data.py: scan the phrases in order
and succeed on the first whose boundary-anchored, case-insensitive pattern is
found in the comment. -/
def contains_phrase (comment : List Char) (phrases : List (List Char)) : Bool :=
  phrases.any (fun phrase => regexSearchWord comment phrase)

/-- Propositional form of a whole-word occurrence: at some offset of the
lower-cased comment the lower-cased phrase occurs literally, with the regex
word-boundary condition holding at both ends. -/
def WholeWordOccurs (phrase comment : List Char) : Prop :=
  ∃ i, i + phrase.length ≤ comment.length ∧
    ((toLowerList comment).drop i).take phrase.length = toLowerList phrase ∧
    isBoundary (toLowerList comment) i = true ∧
    isBoundary (toLowerList comment) (i + phrase.length) = true

/-- matches_keyword from filter_pushshift_comments.py: lower-case both texts,
succeed on plain substring containment, and otherwise, when loose matching is
enabled, succeed when every whitespace-separated word of the keyword occurs
somewhere in the comment as a substring. -/
def matches_keyword (comment keyword : List Char) (loose_match : Bool) : Bool :=
  if isSubstring (toLowerList keyword) (toLowerList comment) then true
  else if loose_match then
    (pySplit (toLowerList keyword)).all (fun word => isSubstring word (toLowerList comment))
  else false

/-- One decoded JSON line of a Pushshift dump, with the two attributes the
scripts consume. -/
structure RawRecord where
  author : List Char
  body : List Char

/-- The record-retention test of process_comments_from_file (both scripts):
keep a record when its author differs from the bot author and its lower-cased
body does not contain the substring of the daily-threads marker. -/
def keepRecord (bot_author : List Char) (r : RawRecord) : Bool :=
  !(r.author == bot_author) && !(isSubstring ("daily threads".data) (toLowerList r.body))

/-- The fragments one parsed line contributes in process_comments_from_file
(both scripts): nothing for a line that failed JSON decoding, nothing for a
skipped record, and the newline-split parts of the body otherwise. -/
def extractLine (bot_author : List Char) : Option RawRecord → List (List Char)
  | none => []
  | some r => if keepRecord bot_author r then split_on_newlines r.body else []

/-- The diagnostic messages printed while processing the lines of one file:
one decode-failure message, carrying the file path, per line that failed JSON
decoding. -/
def lineDiagnostics (file_path : List Char) (lines : List (Option RawRecord)) : List (List Char) :=
  lines.filterMap (fun l => match l with
    | none => some ("Error decoding JSON in file: ".data ++ file_path)
    | some _ => none)

/-- DOMAIN_KEYWORDS from src/filter_constants.py. -/
def DOMAIN_KEYWORDS : List (List Char) :=
  ["app".data, "mfp".data, "myfitnesspal".data, "loseit".data, "cronometer".data,
   "macrofactor".data, "fatsecret".data, "mynetdiary".data, "yazio".data, "lifesum".data,
   "nutritionix".data]

/-- DOMAIN_FEATURE_KEYWORDS from src/filter_constants.py.  The Python source
writes the tuple over many lines and omits the separating comma after seven
of its entries, so Python's implicit adjacent-string-literal concatenation
fuses each such entry with the one that follows; the fused entries are kept
here exactly as Python evaluates the tuple. -/
def DOMAIN_FEATURE_KEYWORDS : List (List Char) :=
  ["macronutrient tracking".data, "macro tracking".data, "macro counting".data,
   "macro breakdown".data, "macro".data, "track macromicronutrient tracking".data,
   "micro tracking".data, "vitamin tracking".data, "mineral tracking".data,
   "micronutrient".data, "micro".data, "track microcalorie counting".data,
   "calorie tracking".data, "track caloriefood logging".data, "food log".data,
   "food entry".data, "recipe entry".data, "meal entry".data, "add recipe".data,
   "add food".data, "recipe logging".data, "meal logging".data, "record food".data,
   "record recipe".data, "record meal".data, "food diary".data, "barcode scanning".data,
   "barcode scanner".data, "scanner".data, "barcode".data, "scanningdatabase".data,
   "user submitted entries".data, "entries".data, "library".data, "food list".data,
   "meal planning".data, "meal plan".data, "plan meals".data, "diary sharing".data,
   "intake limit".data, "calorie limit".data, "daily limit".data, "weekly limit".data,
   "exercise tracking".data, "workout tracking".data, "exercise logging".data,
   "workout logging".data, "fitness tracking".data, "track exercise".data,
   "track workout".data, "weight tracking".data, "weight log".data, "weight entry".data,
   "weight records".data, "track weightwater tracking".data, "track watergoal setting".data,
   "set goals".data, "setting goals".data, "custom food".data, "create food".data,
   "custom meal".data, "create meal".data, "custom recipe".data, "recipe builder".data,
   "create recipe".data, "custom goals".data, "goal customization".data,
   "create goalscustom exercises".data, "custom workouts".data, "workout customization".data,
   "exercise customization".data, "daily summary".data, "weekly summary".data,
   "daily breakdown".data, "weekly breakdown".data, "activity syncing".data,
   "app sync".data, "app integration".data, "social media".data, "friends".data,
   "reminders".data, "sleep tracking".data, "track sleep".data, "step tracking".data,
   "step tracker".data, "track step".data, "calorie burn".data, "health insights".data,
   "nutrition insights".data, "nutrition breakdown".data, "nutrition strategies".data,
   "stats".data, "strategies".data, "data insights".data, "reports".data,
   "artificial intelligence".data, "ai".data, "AI".data, "offline mode".data,
   "offline".data, "intermittent fasting timer".data, "fasting timer".data,
   "fasting schedule".data, "fasting tracker".data, "weekly challenges".data,
   "achievements".data, "streaks".data, "challenges".data, "daily challenges".data,
   "streak".data]

/-- Stable insertion of an element into a list sorted by descending key, the
element going after every already-placed element of greater or equal key. -/
def insertDesc (key : List Char → Nat) (x : List Char) : List (List Char) → List (List Char)
  | [] => [x]
  | y :: ys => if key x < key y then y :: insertDesc key x ys else x :: y :: ys

/-- Python sorted with a key function and descending order (a stable sort),
as insertion sort: elements of equal key keep their original order. -/
def sortDesc (key : List Char → Nat) (l : List (List Char)) : List (List Char) :=
  l.foldr (insertDesc key) []

namespace Data

/-- filter_comments from filter_pushshift_data.py: keep exactly the entries
that contain some domain keyword and some domain feature keyword, in order,
each retained entry appended once. -/
def filter_comments (data domain_keywords domain_feature_keywords : List (List Char)) :
    List (List Char) :=
  data.filter (fun comment =>
    contains_phrase comment domain_keywords &&
    contains_phrase comment domain_feature_keywords)

/-- The sorted feature-keyword list built by process_comments_from_file in
filter_pushshift_data.py: DOMAIN_FEATURE_KEYWORDS stably sorted by descending
number of whitespace-separated words. -/
def sorted_feature_keywords : List (List Char) :=
  sortDesc (fun x => (pySplit x).length) DOMAIN_FEATURE_KEYWORDS

/-- process_comments_from_file from filter_pushshift_data.py: collect the
fragments of the kept records of the file, then filter them against
DOMAIN_KEYWORDS and the sorted feature keywords. -/
def process_comments_from_file (bot_author : List Char) (lines : List (Option RawRecord)) :
    List (List Char) :=
  filter_comments (lines.flatMap (extractLine bot_author)) DOMAIN_KEYWORDS
    sorted_feature_keywords

/-- process_comments_from_folder from filter_pushshift_data.py: process every
file of the folder in listing order and concatenate the results. -/
def process_comments_from_folder (bot_author : List Char)
    (files : List (List (Option RawRecord))) : List (List Char) :=
  files.flatMap (fun file => process_comments_from_file bot_author file)

/-- Modelled from the spec, for comparison with the code: extract the
fragments of every file first, concatenating them in file order, and filter
the aggregate once with the same two phrase sets. -/
def aggregate_then_filter (bot_author : List Char)
    (files : List (List (Option RawRecord))) : List (List Char) :=
  filter_comments (files.flatMap (fun file => file.flatMap (extractLine bot_author)))
    DOMAIN_KEYWORDS sorted_feature_keywords

end Data

namespace Comments

/-- filter_comments from filter_pushshift_comments.py: for each comment in
order, and for each keyword in order, append the comment whenever
matches_keyword succeeds; the inner loop does not stop after a match, so one
comment is appended once per matching keyword. -/
def filter_comments (comments_list keywords : List (List Char)) (loose_match : Bool) :
    List (List Char) :=
  comments_list.flatMap (fun comment =>
    (keywords.filter (fun keyword => matches_keyword comment keyword loose_match)).map
      (fun _ => comment))

/-- process_comments_from_file from filter_pushshift_comments.py: the
fragments contributed by the kept records of the file, in line order, with
decode failures and skipped records contributing nothing. -/
def process_comments_from_file (bot_author : List Char) (lines : List (Option RawRecord)) :
    List (List Char) :=
  lines.flatMap (extractLine bot_author)

/-- The file-system effects of a successful decompression run, represented
as data: the directories the run creates, the decompressed files it writes,
and the archive entries it skips as not matching the expected name pattern. -/
structure DecompressEffects where
  created_dirs : List (List Char)
  written_files : List (List Char)
  skipped_items : List (List Char)

/-- decompress_zst_files from filter_pushshift_comments.py, with file-system
state passed explicitly (the set of existing paths and the directory listing)
and effects returned as data: when the input directory does not exist the
function fails at once with the distinct does-not-exist error, before any
directory is created or any file is read or written; otherwise it creates the
output and comments directories, decompresses every listed archive whose name
has the archive extension and the comments marker, and skips the rest. -/
def decompress_zst_files (existing_paths listing : List (List Char))
    (dir_path output_path extension : List Char) : Except (List Char) DecompressEffects :=
  if existing_paths.contains dir_path then
    Except.ok
      { created_dirs := [output_path, output_path ++ "/comments".data],
        written_files :=
          (listing.filter (fun item =>
            extension.isSuffixOf item && isSubstring ("_comments.zst".data) item)).map
            (fun item => output_path ++ "/comments/".data ++ item),
        skipped_items :=
          listing.filter (fun item =>
            extension.isSuffixOf item && !(isSubstring ("_comments.zst".data) item)) }
  else Except.error (dir_path ++ " does not exist.".data)

/-- The driver of filter_pushshift_comments.py around its decompression call:
a NameError from decompress_zst_files is caught and turns into exit status 1
with no further work, and otherwise the run proceeds and finishes with exit
status 0.  The result is the exit status paired with the decompression
effects (none when the run aborted). -/
def main_run (existing_paths listing : List (List Char)) (input output : List Char) :
    Nat × Option DecompressEffects :=
  match decompress_zst_files existing_paths listing input output (".zst".data) with
  | Except.error _ => (1, none)
  | Except.ok eff => (0, some eff)

end Comments

theorem isPrefixOf_iff (needle hay : List Char) :
    needle.isPrefixOf hay = true ↔ ∃ t, hay = needle ++ t := by
  induction needle generalizing hay with
  | nil => simp [List.isPrefixOf]
  | cons a n ih =>
    cases hay with
    | nil => simp [List.isPrefixOf]
    | cons b t =>
      simp only [List.isPrefixOf, Bool.and_eq_true, beq_iff_eq, ih, List.cons_append]
      constructor
      · rintro ⟨rfl, s, rfl⟩
        exact ⟨s, rfl⟩
      · rintro ⟨s, hs⟩
        injection hs with h1 h2
        exact ⟨h1.symm, s, h2⟩

theorem isSubstring_iff (needle hay : List Char) :
    isSubstring needle hay = true ↔ SubstringOf needle hay := by
  induction hay with
  | nil =>
    simp only [isSubstring, beq_iff_eq, SubstringOf]
    constructor
    · rintro rfl
      exact ⟨[], [], rfl⟩
    · rintro ⟨pre, post, hp⟩
      have h0 := hp.symm
      simp only [List.append_assoc, List.append_eq_nil] at h0
      exact h0.2.1
  | cons c t ih =>
    simp only [isSubstring, Bool.or_eq_true, isPrefixOf_iff, ih, SubstringOf]
    constructor
    · rintro (⟨s, hs⟩ | ⟨pre, post, hp⟩)
      · exact ⟨[], s, by simpa using hs⟩
      · exact ⟨c :: pre, post, by simp [hp]⟩
    · rintro ⟨pre, post, hp⟩
      cases pre with
      | nil => exact Or.inl ⟨post, by simpa using hp⟩
      | cons d pre =>
        rw [List.cons_append, List.cons_append] at hp
        injection hp with h1 h2
        exact Or.inr ⟨pre, post, h2⟩

theorem regexSearchWord_iff (comment phrase : List Char) :
    regexSearchWord comment phrase = true ↔ WholeWordOccurs phrase comment := by
  have hplen : (toLowerList phrase).length = phrase.length := List.length_map _ _
  have hclen : (toLowerList comment).length = comment.length := List.length_map _ _
  unfold regexSearchWord WholeWordOccurs
  rw [List.any_eq_true]
  constructor
  · rintro ⟨i, hmem, hmatch⟩
    rw [List.mem_range, hclen] at hmem
    unfold matchAt at hmatch
    simp only [Bool.and_eq_true, beq_iff_eq] at hmatch
    obtain ⟨⟨htake, hb1⟩, hb2⟩ := hmatch
    rw [hplen] at htake hb2
    have hlen : i + phrase.length ≤ comment.length := by
      have hl := congrArg List.length htake
      rw [List.length_take, List.length_drop, hclen, hplen] at hl
      omega
    exact ⟨i, hlen, htake, hb1, hb2⟩
  · rintro ⟨i, hlen, htake, hb1, hb2⟩
    refine ⟨i, ?_, ?_⟩
    · rw [List.mem_range, hclen]
      omega
    · unfold matchAt
      simp only [Bool.and_eq_true, beq_iff_eq, hplen]
      exact ⟨⟨htake, hb1⟩, hb2⟩

theorem contains_phrase_iff (comment : List Char) (phrases : List (List Char)) :
    contains_phrase comment phrases = true ↔ ∃ p ∈ phrases, WholeWordOccurs p comment := by
  unfold contains_phrase
  rw [List.any_eq_true]
  constructor
  · rintro ⟨p, hp, hs⟩
    exact ⟨p, hp, (regexSearchWord_iff comment p).mp hs⟩
  · rintro ⟨p, hp, ho⟩
    exact ⟨p, hp, (regexSearchWord_iff comment p).mpr ho⟩

theorem matches_keyword_exact_eq (comment keyword : List Char) :
    matches_keyword comment keyword false =
      isSubstring (toLowerList keyword) (toLowerList comment) := by
  unfold matches_keyword
  cases h : isSubstring (toLowerList keyword) (toLowerList comment) <;> simp [h]

theorem all_substring_of (words : List (List Char)) (c : List Char)
    (h : words.all (fun word => isSubstring word c) = true) :
    ∀ w ∈ words, SubstringOf w c := by
  rw [List.all_eq_true] at h
  intro w hw
  exact (isSubstring_iff w c).mp (h w hw)

theorem dropWhile_any_not (p : Char → Bool) (l : List Char) (h : l.dropWhile p ≠ []) :
    (l.dropWhile p).any (fun c => !p c) = true := by
  induction l with
  | nil => simp at h
  | cons a t ih =>
    rw [List.dropWhile_cons] at h ⊢
    by_cases hpa : p a = true
    · simp only [hpa, if_true] at h ⊢
      exact ih h
    · have hpa' : p a = false := by
        cases hb : p a
        · rfl
        · exact absurd hb hpa
      simp [hpa', List.any_cons]

theorem pyStrip_ne_nil_any (s : List Char) (h : pyStrip s ≠ []) :
    (pyStrip s).any (fun c => !isPySpace c) = true := by
  unfold pyStrip at h ⊢
  have hne : ((s.dropWhile isPySpace).reverse).dropWhile isPySpace ≠ [] := by
    intro h0
    apply h
    rw [h0]
    rfl
  have hany := dropWhile_any_not isPySpace ((s.dropWhile isPySpace).reverse) hne
  rw [List.any_eq_true] at hany ⊢
  obtain ⟨c, hc, hcp⟩ := hany
  exact ⟨c, List.mem_reverse.mpr hc, hcp⟩

/-- C2 counterexample: the exact (non-loose) policy of matches_keyword is a
plain case-insensitive substring check, so the phrase "ai" matches inside the
word "said" of the comment "said hi" even with loose matching disabled,
whereas the claim states this match must fail under whole-word boundary
semantics. -/
theorem claim_C2_counterexample :
    matches_keyword "said hi".data "ai".data false = true := by decide

/-- C2 (amended): the exact (non-loose) policy of matches_keyword succeeds
exactly on case-insensitive substring containment, with no word-boundary
requirement; whole-word boundary semantics at both ends hold only for the
dual-set filter matcher contains_phrase, which accepts the phrase "macro" in
"I track my macro intake" and rejects the phrase "ai" in "said hi", while
matches_keyword accepts both. -/
theorem claim_C2_amended :
    (∀ comment keyword : List Char,
      matches_keyword comment keyword false = true ↔
        SubstringOf (toLowerList keyword) (toLowerList comment)) ∧
    (∀ comment phrases, contains_phrase comment phrases = true ↔
        ∃ p ∈ phrases, WholeWordOccurs p comment) ∧
    contains_phrase "I track my macro intake".data ["macro".data] = true ∧
    contains_phrase "said hi".data ["ai".data] = false ∧
    matches_keyword "I track my macro intake".data "macro".data false = true := by
  refine ⟨?_, contains_phrase_iff, by decide, by decide, by decide⟩
  intro comment keyword
  rw [matches_keyword_exact_eq, isSubstring_iff]

/-- C3: evaluation at the failing input.  The claim states that
filter_comments of filter_pushshift_comments.py appends a fragment at most
once, scanning stopping at the first matching phrase; the code has no such
stop, so the single comment "calorie tracking app", matching both supplied
keywords, is appended twice. -/
theorem claim_C3_eval :
    Comments.filter_comments ["calorie tracking app".data]
        ["calorie".data, "app".data] false =
      ["calorie tracking app".data, "calorie tracking app".data] := by decide

/-- C4: with loose matching enabled and the exact substring match failing,
matches_keyword succeeds if and only if every whitespace-separated word of
the phrase occurs somewhere in the lower-cased comment as a substring,
independent of position and order and with no word-boundary requirement; in
particular "weekly goals" matches "I set my goals weekly" loosely and does
not match "I set goals". -/
theorem claim_C4 :
    (∀ comment keyword : List Char,
      ¬ SubstringOf (toLowerList keyword) (toLowerList comment) →
        (matches_keyword comment keyword true = true ↔
          ∀ w ∈ pySplit (toLowerList keyword), SubstringOf w (toLowerList comment))) ∧
    matches_keyword "I set my goals weekly".data "weekly goals".data true = true ∧
    matches_keyword "I set goals".data "weekly goals".data true = false := by
  refine ⟨?_, by decide, by decide⟩
  intro comment keyword h
  have hsub : isSubstring (toLowerList keyword) (toLowerList comment) = false := by
    cases hb : isSubstring (toLowerList keyword) (toLowerList comment)
    · rfl
    · exact absurd ((isSubstring_iff _ _).mp hb) h
  unfold matches_keyword
  simp only [hsub, Bool.false_eq_true, if_false, if_true, List.all_eq_true]
  constructor
  · intro hall w hw
    exact (isSubstring_iff w (toLowerList comment)).mp (hall w hw)
  · intro hall w hw
    exact (isSubstring_iff w (toLowerList comment)).mpr (hall w hw)

/-- C4 witness: the loose-match theorem applied at the comment
"I set my goals weekly" and the phrase "weekly goals", whose exact match
fails, concluding that the loose match succeeds. -/
theorem claim_C4_witness :
    matches_keyword "I set my goals weekly".data "weekly goals".data true = true := by
  have h : ¬ SubstringOf (toLowerList "weekly goals".data)
      (toLowerList "I set my goals weekly".data) := by
    rw [← isSubstring_iff]
    decide
  exact (claim_C4.1 _ _ h).mpr (all_substring_of _ _ (by decide))

/-- C6: every fragment produced by split_on_newlines is non-empty and
contains a non-whitespace character, and splitting the body
"a\n\nb\n c " yields exactly the fragments "a", "b", "c": pieces are split
on runs of newlines, trimmed, and dropped when empty, in original order. -/
theorem claim_C6 :
    (∀ comment : List Char, ((split_on_newlines comment).all
      (fun f => !(f == []) && f.any (fun ch => !isPySpace ch))) = true) ∧
    split_on_newlines "a\n\nb\n c ".data = ["a".data, "b".data, "c".data] := by
  refine ⟨?_, by decide⟩
  intro comment
  rw [List.all_eq_true]
  intro f hf
  unfold split_on_newlines at hf
  rw [List.mem_filter] at hf
  obtain ⟨hmem, hne⟩ := hf
  rw [List.mem_map] at hmem
  obtain ⟨p, _, rfl⟩ := hmem
  rw [Bool.and_eq_true]
  refine ⟨hne, ?_⟩
  apply pyStrip_ne_nil_any
  intro h0
  rw [h0] at hne
  simp at hne

/-- C7: evaluation at the failing input.  The claim states that both filter
variants are idempotent; for the flat-list OR filter of
filter_pushshift_comments.py, filtering the one-comment list once yields the
matching comment twice (once per matching keyword), and filtering that output
again yields it four times, so the second application does not return its
input unchanged. -/
theorem claim_C7_eval :
    Comments.filter_comments ["calorie tracking app".data]
        ["calorie".data, "app".data] false =
      ["calorie tracking app".data, "calorie tracking app".data] ∧
    Comments.filter_comments
        (Comments.filter_comments ["calorie tracking app".data]
          ["calorie".data, "app".data] false)
        ["calorie".data, "app".data] false =
      ["calorie tracking app".data, "calorie tracking app".data,
       "calorie tracking app".data, "calorie tracking app".data] := by
  exact ⟨by decide, by decide⟩

/-- Development fact accompanying the filter analysis: the dual-set AND
filter of filter_pushshift_data.py is idempotent, since it is a plain filter
by a fixed predicate. -/
theorem filter_comments_and_idem (data domain_keywords domain_feature_keywords :
    List (List Char)) :
    Data.filter_comments (Data.filter_comments data domain_keywords domain_feature_keywords)
        domain_keywords domain_feature_keywords =
      Data.filter_comments data domain_keywords domain_feature_keywords := by
  unfold Data.filter_comments
  rw [List.filter_filter]
  apply List.filter_congr
  intro a _
  exact Bool.and_self _

set_option maxRecDepth 4000

/-- C1: a fragment is retained by the dual-set AND filter exactly when it is
in the input and contains a whole-word, case-insensitive occurrence of some
domain keyword and of some domain feature keyword; each input occurrence of a
retained fragment is kept exactly once (the output count of a fragment equals
its input count when the twofold test holds and zero otherwise); on the
constant keyword sets, a fragment with only a domain keyword or only a
feature phrase is excluded and one with both is retained exactly once. -/
theorem claim_C1 :
    (∀ (data domain_keywords domain_feature_keywords : List (List Char))
        (comment : List Char),
      (comment ∈ Data.filter_comments data domain_keywords domain_feature_keywords ↔
        comment ∈ data ∧ (∃ p ∈ domain_keywords, WholeWordOccurs p comment) ∧
          (∃ q ∈ domain_feature_keywords, WholeWordOccurs q comment)) ∧
      (Data.filter_comments data domain_keywords domain_feature_keywords).count comment =
        (if contains_phrase comment domain_keywords &&
            contains_phrase comment domain_feature_keywords
          then data.count comment else 0)) ∧
    Data.filter_comments ["MyFitnessPal is great".data, "macro tracking is nice".data,
        "I love macro tracking on MyFitnessPal".data]
      DOMAIN_KEYWORDS Data.sorted_feature_keywords =
    ["I love macro tracking on MyFitnessPal".data] := by
  refine ⟨?_, by decide⟩
  intro data domain_keywords domain_feature_keywords comment
  constructor
  · unfold Data.filter_comments
    rw [List.mem_filter, Bool.and_eq_true, contains_phrase_iff, contains_phrase_iff]
  · unfold Data.filter_comments
    by_cases hp : (contains_phrase comment domain_keywords &&
        contains_phrase comment domain_feature_keywords) = true
    · rw [if_pos hp]
      exact List.count_filter hp
    · rw [if_neg hp, List.count_eq_zero]
      rw [List.mem_filter]
      rintro ⟨-, hpc⟩
      exact hp hpc

/-- C5: a raw record whose author equals the bot author, or whose body
contains the substring "daily threads" in any letter case, contributes zero
fragments to the extractor output of either script: deleting the record from
the file leaves the output unchanged. -/
theorem claim_C5 (bot_author : List Char) (pre post : List (Option RawRecord)) (r : RawRecord)
    (h : r.author = bot_author ∨ SubstringOf ("daily threads".data) (toLowerList r.body)) :
    Comments.process_comments_from_file bot_author (pre ++ some r :: post) =
      Comments.process_comments_from_file bot_author (pre ++ post) ∧
    Data.process_comments_from_file bot_author (pre ++ some r :: post) =
      Data.process_comments_from_file bot_author (pre ++ post) := by
  have hkeep : keepRecord bot_author r = false := by
    unfold keepRecord
    rcases h with h | h
    · simp [h]
    · have hs : isSubstring ("daily threads".data) (toLowerList r.body) = true :=
        (isSubstring_iff _ _).mpr h
      simp [hs]
  have hline : extractLine bot_author (some r) = [] := by
    simp [extractLine, hkeep]
  have hflat : (pre ++ some r :: post).flatMap (extractLine bot_author) =
      (pre ++ post).flatMap (extractLine bot_author) := by
    simp [List.flatMap_append, List.flatMap_cons, hline]
  constructor
  · unfold Comments.process_comments_from_file
    exact hflat
  · unfold Data.process_comments_from_file
    rw [hflat]

/-- C5 witness: the exclusion theorem applied to a file holding one record
authored by the bot, concluding that both extractors produce the same output
as for the empty file. -/
theorem claim_C5_witness :
    Comments.process_comments_from_file "AutoModerator".data
        [some ⟨"AutoModerator".data, "hello world".data⟩] =
      Comments.process_comments_from_file "AutoModerator".data [] ∧
    Data.process_comments_from_file "AutoModerator".data
        [some ⟨"AutoModerator".data, "hello world".data⟩] =
      Data.process_comments_from_file "AutoModerator".data [] :=
  claim_C5 "AutoModerator".data [] []
    ⟨"AutoModerator".data, "hello world".data⟩ (Or.inl rfl)

/-- C8: a line that fails JSON decoding contributes no fragments to either
script's per-file output and the remaining lines are processed exactly as if
the malformed line were absent, while one decode-failure diagnostic naming
the file is reported for it; processing never aborts (the per-file functions
are total). -/
theorem claim_C8 (bot_author file_path : List Char) (pre post : List (Option RawRecord)) :
    Comments.process_comments_from_file bot_author (pre ++ none :: post) =
      Comments.process_comments_from_file bot_author (pre ++ post) ∧
    Data.process_comments_from_file bot_author (pre ++ none :: post) =
      Data.process_comments_from_file bot_author (pre ++ post) ∧
    lineDiagnostics file_path (pre ++ none :: post) =
      lineDiagnostics file_path pre ++
        ("Error decoding JSON in file: ".data ++ file_path) ::
          lineDiagnostics file_path post := by
  have hflat : (pre ++ none :: post).flatMap (extractLine bot_author) =
      (pre ++ post).flatMap (extractLine bot_author) := by
    simp [List.flatMap_append, List.flatMap_cons, extractLine]
  refine ⟨?_, ?_, ?_⟩
  · unfold Comments.process_comments_from_file
    exact hflat
  · unfold Data.process_comments_from_file
    rw [hflat]
  · unfold lineDiagnostics
    simp [List.filterMap_append, List.filterMap_cons]

/-- C9: when the input directory does not exist, decompression fails at once
with the distinct does-not-exist error, before any directory is created or
any file read or written, and the driver exits with status 1 having produced
nothing; when the input directory exists this fatal condition is absent and
the driver finishes with exit status 0. -/
theorem claim_C9 (existing_paths listing : List (List Char)) (input output : List Char) :
    (existing_paths.contains input = false →
      Comments.decompress_zst_files existing_paths listing input output (".zst".data) =
        Except.error (input ++ " does not exist.".data) ∧
      Comments.main_run existing_paths listing input output = (1, none)) ∧
    (existing_paths.contains input = true →
      (Comments.main_run existing_paths listing input output).1 = 0) := by
  constructor
  · intro h
    unfold Comments.main_run Comments.decompress_zst_files
    rw [h]
    exact ⟨rfl, rfl⟩
  · intro h
    unfold Comments.main_run Comments.decompress_zst_files
    rw [h]
    rfl

/-- C9 witness: the failure branch applied to an empty file system, where the
input directory cannot exist, and the success branch applied to a file system
that holds the input directory. -/
theorem claim_C9_witness :
    (Comments.decompress_zst_files [] [] "missing_input".data "out".data (".zst".data) =
        Except.error ("missing_input".data ++ " does not exist.".data) ∧
      Comments.main_run [] [] "missing_input".data "out".data = (1, none)) ∧
    (Comments.main_run ["indata".data] [] "indata".data "out".data).1 = 0 :=
  ⟨(claim_C9 [] [] "missing_input".data "out".data).1 (by decide),
   (claim_C9 ["indata".data] [] "indata".data "out".data).2 (by decide)⟩

/-- C10: the dual-set AND filter distributes over list concatenation, and
consequently processing each file separately and concatenating, as
process_comments_from_folder does, equals extracting every file's fragments
first and filtering the aggregate once with the same two keyword sets. -/
theorem claim_C10 :
    (∀ xs ys domain_keywords domain_feature_keywords : List (List Char),
      Data.filter_comments (xs ++ ys) domain_keywords domain_feature_keywords =
        Data.filter_comments xs domain_keywords domain_feature_keywords ++
          Data.filter_comments ys domain_keywords domain_feature_keywords) ∧
    (∀ (bot_author : List Char) (files : List (List (Option RawRecord))),
      Data.process_comments_from_folder bot_author files =
        Data.aggregate_then_filter bot_author files) := by
  have hfa : ∀ xs ys dk fk : List (List Char),
      Data.filter_comments (xs ++ ys) dk fk =
        Data.filter_comments xs dk fk ++ Data.filter_comments ys dk fk := by
    intro xs ys dk fk
    unfold Data.filter_comments
    exact List.filter_append xs ys
  refine ⟨hfa, ?_⟩
  intro bot_author files
  induction files with
  | nil => rfl
  | cons f fs ih =>
    unfold Data.process_comments_from_folder Data.aggregate_then_filter at ih ⊢
    rw [List.flatMap_cons, List.flatMap_cons, hfa]
    unfold Data.process_comments_from_file
    congr 1
